import Mathlib

/-!
Verification of the salon booking engine (slot generation, conflict
detection, booking commit, status lifecycle, waitlist promotion).
Definitions are shallow embeddings of the TypeScript source in
`apps/server/src/modules/bookings/bookings.controller.ts`,
`apps/server/src/modules/admin/bookings.controller.ts` and the waitlist
controller.  Times are "HH:MM" strings as in the source; money amounts
(`Number` in the source) are modelled as rationals; the database is an
explicit record of lists.
-/

namespace MassageBot

/-! ## TimeWindow utilities (bookings.controller.ts, lines 614-629) -/

/-- Splitting a character list at every occurrence of a separator, the
`split(':')` of the source (executable by kernel reduction, unlike
`String.splitOn`). -/
def splitOnChar (sep : Char) : List Char → List (List Char)
  | [] => [[]]
  | c :: rest =>
    if c = sep then [] :: splitOnChar sep rest
    else
      match splitOnChar sep rest with
      | [] => [[c]]
      | p :: ps => (c :: p) :: ps

/-- Decimal parsing of a digit list, the `Number(...)` of the source on
well-formed numeric strings (and `Number('') = 0` on the empty string). -/
def parseNatDigits (cs : List Char) : Nat :=
  cs.foldl (fun acc c => acc * 10 + (c.toNat - '0'.toNat)) 0

/-- `timeToMinutes` from the source: split "HH:MM" on ':' and compute
`h * 60 + m`. -/
def timeToMinutes (time : String) : Nat :=
  let parts := (splitOnChar ':' time.data).map parseNatDigits
  parts.getD 0 0 * 60 + parts.getD 1 0

/-- JavaScript string `<` (code-unit lexicographic order), used by the
waitlist booking availability check on "HH:MM" strings. -/
def charListLt : List Char → List Char → Bool
  | [], [] => false
  | [], _ :: _ => true
  | _ :: _, [] => false
  | a :: as, b :: bs =>
    if a.toNat < b.toNat then true
    else if b.toNat < a.toNat then false
    else charListLt as bs

/-- JavaScript `a < b` on strings. -/
def strLt (a b : String) : Bool :=
  charListLt a.data b.data

/-- Zero-padding to two digits, as `toString().padStart(2, '0')`. -/
def pad2 (n : Nat) : String :=
  if n < 10 then "0" ++ toString n else toString n

/-- `minutesToTime` from the source: hours `minutes / 60`, minutes
`minutes % 60`, both zero-padded. -/
def minutesToTime (minutes : Nat) : String :=
  pad2 (minutes / 60) ++ ":" ++ pad2 (minutes % 60)

/-- `calculateEndTime` from the source. -/
def calculateEndTime (startTime : String) (durationMinutes : Nat) : String :=
  minutesToTime (timeToMinutes startTime + durationMinutes)

/-! ## Slot generator (`generateTimeSlots`, lines 576-612) -/

/-- A start/end pair of "HH:MM" strings, as selected from existing
bookings by the slot and conflict queries. -/
structure TimeRange where
  startTime : String
  endTime : String
  deriving DecidableEq, Repr

/-- The buffered conflict test of the slot generator (lines 595-602):
`slotStartMin < bookingEnd + bufferMinutes && slotEndMin > bookingStart -
bufferMinutes`.  The subtraction is on JavaScript numbers, so it is done
in `Int` (it may go below zero). -/
def bufferedConflict (existingBookings : List TimeRange) (durationMinutes bufferMinutes currentMinutes : Nat) : Bool :=
  existingBookings.any (fun booking =>
    let bookingStart := timeToMinutes booking.startTime
    let bookingEnd := timeToMinutes booking.endTime
    decide (currentMinutes < bookingEnd + bufferMinutes) &&
    decide (((currentMinutes + durationMinutes : Nat) : Int) > (bookingStart : Int) - (bufferMinutes : Int)))

/-- The `while (currentMinutes + durationMinutes <= endMinutes)` loop of
`generateTimeSlots`, collecting the accepted candidate starts in minutes.
The loop advances by 15 each iteration, so `fuel := endMinutes + 1`
iterations always suffice; the fuel is structural recursion only, the
loop is never cut short (see `mem_generateTimeSlotMinutesAux`). -/
def generateTimeSlotMinutesAux (endMinutes durationMinutes bufferMinutes : Nat) (existingBookings : List TimeRange) : Nat → Nat → List Nat
  | 0, _ => []
  | fuel + 1, currentMinutes =>
    if currentMinutes + durationMinutes ≤ endMinutes then
      if bufferedConflict existingBookings durationMinutes bufferMinutes currentMinutes then
        generateTimeSlotMinutesAux endMinutes durationMinutes bufferMinutes existingBookings fuel (currentMinutes + 15)
      else
        currentMinutes :: generateTimeSlotMinutesAux endMinutes durationMinutes bufferMinutes existingBookings fuel (currentMinutes + 15)
    else []

/-- Accepted candidate starts of `generateTimeSlots`, in minutes. -/
def generateTimeSlotMinutes (startTime endTime : String) (durationMinutes bufferMinutes : Nat) (existingBookings : List TimeRange) : List Nat :=
  generateTimeSlotMinutesAux (timeToMinutes endTime) durationMinutes bufferMinutes existingBookings
    (timeToMinutes endTime + 1) (timeToMinutes startTime)

/-- `generateTimeSlots` from the source.  The source pushes
`minutesToTime currentMinutes` for each accepted candidate inside the
loop; this is the same list as mapping `minutesToTime` over the accepted
candidate minutes. -/
def generateTimeSlots (startTime endTime : String) (durationMinutes bufferMinutes : Nat) (existingBookings : List TimeRange) : List String :=
  (generateTimeSlotMinutes startTime endTime durationMinutes bufferMinutes existingBookings).map minutesToTime

/-! ## Data model -/

/-- The booking status enum (`BookingStatus` in
admin/bookings.controller.ts, lines 8-18). -/
inductive BookingStatus where
  | pending_confirmation
  | confirmed
  | deposit_pending
  | deposit_paid
  | in_progress
  | completed
  | cancelled_by_client
  | cancelled_by_admin
  | no_show
  deriving DecidableEq, Repr

/-- A status counts against the calendar unless it is one of the two
cancelled variants: the `status: { notIn: ['cancelled_by_client',
'cancelled_by_admin'] }` filter used by every busy-set query. -/
def isBlocking (s : BookingStatus) : Bool :=
  !(s == .cancelled_by_client || s == .cancelled_by_admin)

inductive DiscountType where
  | percent
  | fixed
  deriving DecidableEq, Repr

/-- A row of the `promoCode` table. -/
structure PromoCode where
  id : Nat
  code : String
  isActive : Bool
  discountType : DiscountType
  discountValue : ℚ
  validFrom : Int
  validUntil : Int
  minOrderAmount : Option ℚ
  maxUses : Option Nat
  currentUses : Nat
  deriving DecidableEq, Repr

/-- A line item of a booking (`bookingItems` / `items.create` in the
commit transaction). -/
structure BookingItem where
  serviceId : Nat
  durationId : Nat
  price : ℚ
  sortOrder : Nat
  deriving DecidableEq, Repr

/-- A row of the `booking` table (the fields the engine reads or
writes). -/
structure Booking where
  id : Nat
  userId : Nat
  masterId : Nat
  bookingDate : Nat
  startTime : String
  endTime : String
  status : BookingStatus
  totalPrice : ℚ
  discountAmount : ℚ
  promoCodeId : Option Nat
  cancelReason : Option String
  adminNotes : Option String
  items : List BookingItem
  deriving DecidableEq, Repr

/-- A row of the `master` table (the fields the commit reads). -/
structure Master where
  id : Nat
  isActive : Bool
  deriving DecidableEq, Repr

/-- A row of the `serviceDuration` table. -/
structure ServiceDuration where
  id : Nat
  serviceId : Nat
  durationMinutes : Nat
  basePrice : ℚ
  isActive : Bool
  deriving DecidableEq, Repr

/-- A row of the `masterService` table. -/
structure MasterService where
  masterId : Nat
  serviceId : Nat
  priceModifier : ℚ
  deriving DecidableEq, Repr

/-- A row of the `loyaltySettings` table. -/
structure LoyaltySettings where
  id : Nat
  stampsForReward : Nat
  isActive : Bool
  deriving DecidableEq, Repr

/-- A row of the `loyaltyStamp` table. -/
structure LoyaltyStamp where
  userId : Nat
  bookingId : Nat
  stampNumber : Nat
  isReward : Bool
  deriving DecidableEq, Repr

inductive WaitlistStatus where
  | active
  | notified
  | booked
  | expired
  deriving DecidableEq, Repr

/-- A row of the `waitlist` table.  `masterId = none` is the "any staff"
preference. -/
structure WaitlistEntry where
  id : Nat
  userId : Nat
  serviceId : Nat
  masterId : Option Nat
  preferredDate : Nat
  status : WaitlistStatus
  createdAt : Nat
  deriving DecidableEq, Repr

/-- The database state: each Prisma table as a list of rows, plus a
fresh-id counter. -/
structure DB where
  masters : List Master
  serviceDurations : List ServiceDuration
  masterServices : List MasterService
  promoCodes : List PromoCode
  loyaltySettings : List LoyaltySettings
  loyaltyStamps : List LoyaltyStamp
  bookings : List Booking
  waitlist : List WaitlistEntry
  nextId : Nat
  deriving DecidableEq, Repr

/-- The logical error kinds of the engine (§7 of the spec; the source
returns them as HTTP error codes). -/
inductive ApiError where
  | StaffNotFound
  | InvalidServiceDuration
  | ServiceNotOfferedByStaff
  | SlotNotAvailable
  | NotFound
  | Forbidden
  | InvalidStatus
  | InvalidTransition
  | SlotNoLongerAvailable
  deriving DecidableEq, Repr

/-! ## Booking commit (bookings.controller.ts, POST /, lines 104-386) -/

/-- The commit-time conflict check (lines 187-203): fetch the blocking
bookings of the same master and date and test
`newStart < bookingEnd && newEnd > bookingStart`. -/
def hasBookingConflict (bookings : List Booking) (masterId bookingDate : Nat) (startTime endTime : String) : Bool :=
  (bookings.filter (fun b =>
      b.masterId == masterId && b.bookingDate == bookingDate && isBlocking b.status)).any
    (fun booking =>
      let bookingStart := timeToMinutes booking.startTime
      let bookingEnd := timeToMinutes booking.endTime
      let newStart := timeToMinutes startTime
      let newEnd := timeToMinutes endTime
      decide (newStart < bookingEnd) && decide (newEnd > bookingStart))

/-- The service/duration validation loop (lines 141-181): for each
requested pair find the active duration, require it to belong to the
service, require the master to offer the service, and accumulate total
duration, total price and the priced line items
(`basePrice + priceModifier`). -/
def validateItems (db : DB) (masterId : Nat) : List (Nat × Nat) → Except ApiError (Nat × ℚ × List (Nat × Nat × ℚ))
  | [] => .ok (0, 0, [])
  | (serviceId, durationId) :: rest =>
    match db.serviceDurations.find? (fun d => d.id == durationId && d.isActive) with
    | none => .error .InvalidServiceDuration
    | some duration =>
      if duration.serviceId ≠ serviceId then .error .InvalidServiceDuration
      else
        match db.masterServices.find? (fun ms => ms.masterId == masterId && ms.serviceId == serviceId) with
        | none => .error .ServiceNotOfferedByStaff
        | some masterService =>
          let itemPrice := duration.basePrice + masterService.priceModifier
          match validateItems db masterId rest with
          | .error e => .error e
          | .ok (totalDuration, totalPrice, items) =>
            .ok (duration.durationMinutes + totalDuration, itemPrice + totalPrice,
              (serviceId, durationId, itemPrice) :: items)

/-- The three validity checks of the promo block (lines 222-227):
`isValid && hasUsesLeft && meetsMinAmount` — the validity window,
remaining uses (`maxUses === null` counts as unlimited) and the minimum
order amount (`minOrderAmount === null` counts as no minimum). -/
def promoChecksPass (promo : PromoCode) (now : Int) (totalPrice : ℚ) : Bool :=
  (decide (promo.validFrom ≤ now) && decide (now ≤ promo.validUntil)) &&
  (match promo.maxUses with
    | none => true
    | some maxUses => decide (promo.currentUses < maxUses)) &&
  (match promo.minOrderAmount with
    | none => true
    | some minOrderAmount => decide (minOrderAmount ≤ totalPrice))

/-- The promo validation block of the commit (lines 212-237): look the
code up, check `isActive` and `promoChecksPass`; on any failure silently
keep `(none, 0)`.  On success the discount is `totalPrice *
discountValue / 100` for a percent promo and `min(discountValue,
totalPrice)` for a fixed one. -/
def applyPromo (promoCodesDb : List PromoCode) (promoCode : Option String) (now : Int) (totalPrice : ℚ) : Option Nat × ℚ :=
  match promoCode with
  | none => (none, 0)
  | some code =>
    match promoCodesDb.find? (fun p => p.code == code) with
    | none => (none, 0)
    | some promo =>
      if promo.isActive then
        if promoChecksPass promo now totalPrice then
          (some promo.id,
            if promo.discountType == .percent then totalPrice * promo.discountValue / 100
            else min promo.discountValue totalPrice)
        else (none, 0)
      else (none, 0)

/-- The body of `prisma.$transaction` in the commit (lines 255-313):
create the booking with its line items; if an active loyalty-settings
row exists, create a loyalty stamp and — only inside that branch, as in
the source — increment the applied promo's usage counter. -/
def commitTransaction (db : DB) (userId masterId bookingDate : Nat) (startTime endTime : String)
    (finalPrice discountAmount : ℚ) (promoCodeId : Option Nat) (items : List (Nat × Nat × ℚ)) : DB × Booking :=
  let newBooking : Booking :=
    { id := db.nextId
      userId := userId
      masterId := masterId
      bookingDate := bookingDate
      startTime := startTime
      endTime := endTime
      status := .pending_confirmation
      totalPrice := finalPrice
      discountAmount := discountAmount
      promoCodeId := promoCodeId
      cancelReason := none
      adminNotes := none
      items := (items.zip (List.range items.length)).map
        (fun p => { serviceId := p.1.1, durationId := p.1.2.1, price := p.1.2.2, sortOrder := p.2 }) }
  let db1 := { db with bookings := newBooking :: db.bookings, nextId := db.nextId + 1 }
  let db2 :=
    match db.loyaltySettings.find? (fun s => s.isActive) with
    | none => db1
    | some loyalty =>
      let userStamps := db.loyaltyStamps.countP (fun st => st.userId == userId && !st.isReward)
      let nextStampNumber := userStamps + 1
      let isReward := decide (0 < loyalty.stampsForReward) && decide (nextStampNumber % loyalty.stampsForReward = 0)
      let db1' := { db1 with loyaltyStamps :=
        { userId := userId, bookingId := newBooking.id, stampNumber := nextStampNumber, isReward := isReward } :: db1.loyaltyStamps }
      match promoCodeId with
      | none => db1'
      | some pid =>
        let bumped := db1'.promoCodes.map
          (fun p => if p.id == pid then { p with currentUses := p.currentUses + 1 } else p)
        { db1' with promoCodes := bumped }
  (db2, newBooking)

/-- `commitBooking` — the POST / handler (lines 104-386): validate the
master, validate services and durations, compute the end time, re-check
for conflicts (outside any transaction in the source), validate the
promo, then run the creation transaction. -/
def commitBooking (db : DB) (userId masterId bookingDate : Nat) (startTime : String)
    (serviceDurations : List (Nat × Nat)) (promoCode : Option String) (now : Int) : Except ApiError (DB × Booking) :=
  match db.masters.find? (fun m => m.id == masterId && m.isActive) with
  | none => .error .StaffNotFound
  | some _ =>
    match validateItems db masterId serviceDurations with
    | .error e => .error e
    | .ok (totalDuration, totalPrice, items) =>
      let endTime := calculateEndTime startTime totalDuration
      if hasBookingConflict db.bookings masterId bookingDate startTime endTime then
        .error .SlotNotAvailable
      else
        let promoResult := applyPromo db.promoCodes promoCode now totalPrice
        let finalPrice := totalPrice - promoResult.2
        .ok (commitTransaction db userId masterId bookingDate startTime endTime
          finalPrice promoResult.2 promoResult.1 items)

/-! ## Status lifecycle -/

/-- Replace a booking row by id. -/
def replaceBooking (bookings : List Booking) (updated : Booking) : List Booking :=
  bookings.map (fun b => if b.id == updated.id then updated else b)

/-- The client PATCH /:id/status handler (bookings.controller.ts, lines
502-570): only `cancelled_by_client`, `pending_confirmation` and
`confirmed` are accepted targets; the caller must own the booking; only
the target `cancelled_by_client` is guarded by a check on the current
status (`pending_confirmation`, `confirmed`, `deposit_pending`), whose
failure ("Cannot cancel this booking", HTTP code INVALID_OPERATION) is
the spec's `InvalidTransition`; the update overwrites `cancelReason`
with the provided value or null.  The source raises no waitlist
promotion here. -/
def clientUpdateBookingStatus (db : DB) (userId bookingId : Nat) (status : BookingStatus)
    (cancelReason : Option String) : Except ApiError (DB × Booking) :=
  let validStatuses : List BookingStatus := [.cancelled_by_client, .pending_confirmation, .confirmed]
  if validStatuses.contains status then
    match db.bookings.find? (fun b => b.id == bookingId) with
    | none => .error .NotFound
    | some booking =>
      if booking.userId ≠ userId then .error .Forbidden
      else
        let cancellableStatuses : List BookingStatus := [.pending_confirmation, .confirmed, .deposit_pending]
        if status == .cancelled_by_client && !(cancellableStatuses.contains booking.status) then
          .error .InvalidTransition
        else
          let updated := { booking with status := status, cancelReason := cancelReason }
          .ok ({ db with bookings := replaceBooking db.bookings updated }, updated)
  else .error .InvalidStatus

/-- The admin PATCH /:id/status handler (admin/bookings.controller.ts,
lines 191-242): any of the nine statuses is accepted, with no check on
the booking's current status; `cancelReason`/`adminNotes` are overwritten
only when provided.  The source raises no waitlist promotion here. -/
def adminUpdateBookingStatus (db : DB) (bookingId : Nat) (status : BookingStatus)
    (cancelReason adminNotes : Option String) : Except ApiError (DB × Booking) :=
  match db.bookings.find? (fun b => b.id == bookingId) with
  | none => .error .NotFound
  | some existing =>
    let updated := { existing with
      status := status
      cancelReason := match cancelReason with | some r => some r | none => existing.cancelReason
      adminNotes := match adminNotes with | some n => some n | none => existing.adminNotes }
    .ok ({ db with bookings := replaceBooking db.bookings updated }, updated)

/-! ## Waitlist promotion (waitlist controller) -/

/-- The matching predicate of `checkWaitlistAndNotify` (`findFirst`
where-clause): same service, master exact or "any" (`masterId: null`),
status `active`, preferred date ≤ the freed booking's date. -/
def waitlistMatches (masterId serviceId bookingDate : Nat) (e : WaitlistEntry) : Bool :=
  e.serviceId == serviceId && (e.masterId == some masterId || e.masterId == none) &&
    e.status == .active && decide (e.preferredDate ≤ bookingDate)

/-- `orderBy: { createdAt: 'asc' }` with `findFirst`: the entry with the
least `createdAt` (the earliest remaining on ties). -/
def pickMinCreated : List WaitlistEntry → Option WaitlistEntry
  | [] => none
  | e :: rest =>
    some (match pickMinCreated rest with
      | none => e
      | some best => if e.createdAt ≤ best.createdAt then e else best)

/-- The entry `checkWaitlistAndNotify` selects. -/
def selectWaitlistEntry (entries : List WaitlistEntry) (masterId serviceId bookingDate : Nat) : Option WaitlistEntry :=
  pickMinCreated (entries.filter (waitlistMatches masterId serviceId bookingDate))

/-- `checkWaitlistAndNotify` (waitlist controller, lines 366-422): select
the oldest-created matching active entry; if none, no-op; otherwise set
that one entry to `notified` (the notification dispatch is an external
side effect, not modelled).  `startTime`/`endTime` are only interpolated
into the notification text in the source. -/
def checkWaitlistAndNotify (db : DB) (masterId serviceId : Nat) (bookingDate : Nat)
    (_startTime _endTime : String) : DB :=
  match selectWaitlistEntry db.waitlist masterId serviceId bookingDate with
  | none => db
  | some entry =>
    let waitlist' := db.waitlist.map
      (fun w => if w.id == entry.id then { w with status := .notified } else w)
    { db with waitlist := waitlist' }

/-- The admin DELETE /:id handler (admin/bookings.controller.ts, lines
248-293): set the booking to `cancelled_by_admin` (reason defaulted) and,
when the booking has a master and at least one line item, run
`checkWaitlistAndNotify` for the freed slot using the first item's
service. -/
def adminDeleteBooking (db : DB) (bookingId : Nat) (reason : Option String) : Except ApiError (DB × Booking) :=
  match db.bookings.find? (fun b => b.id == bookingId) with
  | none => .error .NotFound
  | some existing =>
    let updated := { existing with
      status := .cancelled_by_admin
      cancelReason := some (reason.getD "Cancelled by admin") }
    let db1 := { db with bookings := replaceBooking db.bookings updated }
    let db2 :=
      match updated.items with
      | [] => db1
      | item :: _ =>
        checkWaitlistAndNotify db1 updated.masterId item.serviceId updated.bookingDate
          updated.startTime updated.endTime
    .ok (db2, updated)

/-- The availability check of POST /waitlist/:id/book (waitlist
controller, lines 261-266), verbatim including its use of JavaScript
string comparison and its second disjunct comparing the existing
booking's start with the existing booking's own end:
`(startTime >= booking.startTime && startTime < booking.endTime) ||
 (booking.startTime >= startTime && booking.startTime < booking.endTime)`. -/
def waitlistSlotTaken (existingBookings : List Booking) (startTime : String) : Bool :=
  existingBookings.any (fun booking =>
    (!(strLt startTime booking.startTime) && strLt startTime booking.endTime) ||
    (!(strLt booking.startTime startTime) && strLt booking.startTime booking.endTime))

/-- The item-gathering loop of POST /waitlist/:id/book (lines 276-295):
for each requested pair look up the duration by id alone and, when it
exists, accumulate its minutes and base price (no master modifier, no
active check, missing durations silently skipped). -/
def gatherWaitlistItems (db : DB) : List (Nat × Nat) → Nat × ℚ × List (Nat × Nat × ℚ)
  | [] => (0, 0, [])
  | (serviceId, durationId) :: rest =>
    let (totalDuration, totalPrice, items) := gatherWaitlistItems db rest
    match db.serviceDurations.find? (fun d => d.id == durationId) with
    | none => (totalDuration, totalPrice, items)
    | some duration =>
      (duration.durationMinutes + totalDuration, duration.basePrice + totalPrice,
        (serviceId, durationId, duration.basePrice) :: items)

/-- The end-time computation of POST /waitlist/:id/book (lines 298-301):
`setHours(hours + floor((minutes + totalDuration) / 60), (minutes +
totalDuration) % 60)` read back through `getHours()`, so the hour wraps
modulo 24. -/
def waitlistEndTime (startTime : String) (totalDuration : Nat) : String :=
  let total := timeToMinutes startTime + totalDuration
  pad2 (total / 60 % 24) ++ ":" ++ pad2 (total % 60)

/-- POST /waitlist/:id/book (lines 189-358): the entry must exist, be
owned by the caller and be `notified`; availability is re-checked with
`waitlistSlotTaken` against the blocking bookings of the requested master
and date (on failure the entry is left untouched); otherwise a
`confirmed` booking is created and the entry set to `booked`. -/
def waitlistBookSlot (db : DB) (userId entryId masterId bookingDate : Nat) (startTime : String)
    (serviceDurations : List (Nat × Nat)) : Except ApiError (DB × Booking) :=
  match db.waitlist.find? (fun w => w.id == entryId) with
  | none => .error .NotFound
  | some entry =>
    if entry.userId ≠ userId then .error .Forbidden
    else if entry.status ≠ .notified then .error .InvalidStatus
    else
      let existingBookings := db.bookings.filter (fun b =>
        b.masterId == masterId && b.bookingDate == bookingDate && isBlocking b.status)
      if waitlistSlotTaken existingBookings startTime then .error .SlotNoLongerAvailable
      else
        let gathered := gatherWaitlistItems db serviceDurations
        let endTime := waitlistEndTime startTime gathered.1
        let newBooking : Booking :=
          { id := db.nextId
            userId := userId
            masterId := masterId
            bookingDate := bookingDate
            startTime := startTime
            endTime := endTime
            status := .confirmed
            totalPrice := gathered.2.1
            discountAmount := 0
            promoCodeId := none
            cancelReason := none
            adminNotes := none
            items := (gathered.2.2.zip (List.range gathered.2.2.length)).map
              (fun p => { serviceId := p.1.1, durationId := p.1.2.1, price := p.1.2.2, sortOrder := p.2 }) }
        let waitlist' := db.waitlist.map
          (fun w => if w.id == entryId then { w with status := .booked } else w)
        let db' := { db with bookings := newBooking :: db.bookings, nextId := db.nextId + 1, waitlist := waitlist' }
        .ok (db', newBooking)

/-! ## Concurrency model of the commit

In the source, the availability re-check of POST / (lines 187-203) is a
plain `findMany` issued *outside* `prisma.$transaction`; only the
creation of the booking, its items, the loyalty stamp and the promo
increment (lines 255-313) run inside the transaction.  Each request
handler is therefore a sequence of two atomic database actions: the
conflict check, then the creation transaction.  A schedule interleaves
the actions of two concurrent requests; each action reads or writes the
then-current database state. -/

/-- The per-request parameters of a commit whose master/service
validation already succeeded (those lookups also run before the
transaction and touch no shared booking state). -/
structure CommitRequest where
  userId : Nat
  masterId : Nat
  bookingDate : Nat
  startTime : String
  totalDuration : Nat
  totalPrice : ℚ
  items : List (Nat × Nat × ℚ)
  deriving DecidableEq, Repr

/-- How far a commit request has progressed. -/
inductive CommitPhase where
  | toCheck
  | toInsert
  | finished
  deriving DecidableEq, Repr

/-- One in-flight commit request: its parameters, its next atomic action
and, once finished, whether it succeeded (`some true`) or failed with
`SlotNotAvailable` (`some false`). -/
structure ThreadState where
  req : CommitRequest
  phase : CommitPhase
  result : Option Bool
  deriving DecidableEq, Repr

/-- One atomic action of a commit request against the shared database:
the conflict check (lines 187-210) reads the current bookings and either
aborts with `SlotNotAvailable` or proceeds; the transaction (lines
255-313) atomically inserts. -/
def stepThread (db : DB) (t : ThreadState) : DB × ThreadState :=
  match t.phase with
  | .toCheck =>
    let endTime := calculateEndTime t.req.startTime t.req.totalDuration
    if hasBookingConflict db.bookings t.req.masterId t.req.bookingDate t.req.startTime endTime then
      (db, { t with phase := .finished, result := some false })
    else
      (db, { t with phase := .toInsert })
  | .toInsert =>
    let endTime := calculateEndTime t.req.startTime t.req.totalDuration
    let promoResult : Option Nat × ℚ := (none, 0)
    let stepped := commitTransaction db t.req.userId t.req.masterId t.req.bookingDate
      t.req.startTime endTime (t.req.totalPrice - promoResult.2) promoResult.2 promoResult.1 t.req.items
    (stepped.1, { t with phase := .finished, result := some true })
  | .finished => (db, t)

/-- Run a schedule over two concurrent commit requests: `true` steps the
first request, `false` the second. -/
def runSchedule : List Bool → DB × ThreadState × ThreadState → DB × ThreadState × ThreadState
  | [], s => s
  | pick :: rest, (db, t1, t2) =>
    if pick then
      let stepped := stepThread db t1
      runSchedule rest (stepped.1, stepped.2, t2)
    else
      let stepped := stepThread db t2
      runSchedule rest (stepped.1, t1, stepped.2)

/-- The no-double-booking invariant: blocking reservations of the same
master and date have pairwise non-overlapping [start, end) intervals. -/
def noOverlappingBlocking (bookings : List Booking) : Prop :=
  ∀ b1 ∈ bookings, ∀ b2 ∈ bookings, b1.id ≠ b2.id → b1.masterId = b2.masterId →
    b1.bookingDate = b2.bookingDate → isBlocking b1.status = true → isBlocking b2.status = true →
    ¬(timeToMinutes b1.startTime < timeToMinutes b2.endTime ∧
      timeToMinutes b2.startTime < timeToMinutes b1.endTime)

/-! ## Concrete fixtures used by the witnesses and counterexamples -/

/-- An active master, id 1. -/
def masterA : Master := { id := 1, isActive := true }

/-- A 60-minute duration tier of service 2, base price 900, active. -/
def dur10 : ServiceDuration :=
  { id := 10, serviceId := 2, durationMinutes := 60, basePrice := 900, isActive := true }

/-- Master 1 offers service 2 with no price modifier. -/
def ms12 : MasterService := { masterId := 1, serviceId := 2, priceModifier := 0 }

/-- An active percent-20 promo with minimum order 500 and no usage cap. -/
def promoSave20 : PromoCode :=
  { id := 5, code := "SAVE20", isActive := true, discountType := .percent, discountValue := 20,
    validFrom := 0, validUntil := 100, minOrderAmount := some 500, maxUses := none, currentUses := 0 }

/-- An active percent-150 promo (the promo-creation schema only requires
`discountValue` to be positive). -/
def promoMega : PromoCode :=
  { id := 6, code := "MEGA", isActive := true, discountType := .percent, discountValue := 150,
    validFrom := 0, validUntil := 100, minOrderAmount := none, maxUses := none, currentUses := 0 }

/-- A catalog-only database: master 1 offering service 2 (60 min, 900),
the SAVE20 promo, no loyalty program, no bookings. -/
def dbNoLoyalty : DB :=
  { masters := [masterA], serviceDurations := [dur10], masterServices := [ms12],
    promoCodes := [promoSave20], loyaltySettings := [], loyaltyStamps := [],
    bookings := [], waitlist := [], nextId := 1 }

/-- `dbNoLoyalty` with an active loyalty program (10 stamps per reward). -/
def dbWithLoyalty : DB :=
  { dbNoLoyalty with loyaltySettings := [{ id := 1, stampsForReward := 10, isActive := true }] }

/-- `dbNoLoyalty` with the percent-150 promo instead. -/
def dbMega : DB := { dbNoLoyalty with promoCodes := [promoMega] }

/-- A confirmed 09:00-10:00 booking of master 1 on date 0. -/
def bookingNine : Booking :=
  { id := 1, userId := 3, masterId := 1, bookingDate := 0, startTime := "09:00", endTime := "10:00",
    status := .confirmed, totalPrice := 900, discountAmount := 0, promoCodeId := none,
    cancelReason := none, adminNotes := none,
    items := [{ serviceId := 2, durationId := 10, price := 900, sortOrder := 0 }] }

/-- `dbNoLoyalty` with the 09:00-10:00 booking committed. -/
def dbTouch : DB := { dbNoLoyalty with bookings := [bookingNine], nextId := 2 }

/-- A confirmed 10:00-11:00 booking of master 1 on date 5 for service 2,
owned by user 7. -/
def bookingTen : Booking :=
  { id := 1, userId := 7, masterId := 1, bookingDate := 5, startTime := "10:00", endTime := "11:00",
    status := .confirmed, totalPrice := 900, discountAmount := 0, promoCodeId := none,
    cancelReason := none, adminNotes := none,
    items := [{ serviceId := 2, durationId := 10, price := 900, sortOrder := 0 }] }

/-- An active waitlist entry for service 2 with no staff preference,
preferred date 3, created at time 1. -/
def entryW : WaitlistEntry :=
  { id := 1, userId := 9, serviceId := 2, masterId := none, preferredDate := 3,
    status := .active, createdAt := 1 }

/-- Database for the cancellation claims: user 7's confirmed booking and
a matching active waitlist entry. -/
def dbCancel : DB :=
  { dbNoLoyalty with bookings := [bookingTen], waitlist := [entryW], nextId := 2 }

/-- Database for the waitlist-booking claim: user 9 holds a `notified`
entry, and master 1 has a confirmed 12:00-13:00 booking on date 5 that
does not overlap the 09:00-10:00 request. -/
def dbWaitBook : DB :=
  { dbNoLoyalty with
    bookings := [{ bookingTen with id := 2, userId := 3, startTime := "12:00", endTime := "13:00" }],
    waitlist := [{ entryW with status := .notified }],
    nextId := 3 }

/-- User 7's booking in status `completed`. -/
def dbCompleted : DB :=
  { dbNoLoyalty with bookings := [{ bookingTen with status := .completed }], nextId := 2 }

/-- The commit request raced in the concurrency claim: user 7 books
master 1 on date 0 at 10:00 for 60 minutes. -/
def reqOverlap : CommitRequest :=
  { userId := 7, masterId := 1, bookingDate := 0, startTime := "10:00", totalDuration := 60,
    totalPrice := 900, items := [(2, 10, 900)] }

/-- An empty database raced over in the concurrency claim. -/
def dbRace : DB :=
  { masters := [masterA], serviceDurations := [dur10], masterServices := [ms12],
    promoCodes := [], loyaltySettings := [], loyaltyStamps := [],
    bookings := [], waitlist := [], nextId := 1 }

/-- The booking each raced commit inserts (only the id differs). -/
def raceBooking (i : Nat) : Booking :=
  { id := i, userId := 7, masterId := 1, bookingDate := 0, startTime := "10:00", endTime := "11:00",
    status := .pending_confirmation, totalPrice := 900, discountAmount := 0, promoCodeId := none,
    cancelReason := none, adminNotes := none,
    items := [{ serviceId := 2, durationId := 10, price := 900, sortOrder := 0 }] }

/-- The outcome of racing two identical overlapping commits with the
interleaving check-1, check-2, insert-1, insert-2 — an interleaving the
source admits because the availability re-check runs outside
`prisma.$transaction`. -/
def raceFinal : DB × ThreadState × ThreadState :=
  runSchedule [true, false, true, false]
    (dbRace, { req := reqOverlap, phase := .toCheck, result := none },
      { req := reqOverlap, phase := .toCheck, result := none })

/-- The updated row the admin DELETE handler writes. -/
def cancelledByAdmin (bk : Booking) (reason : Option String) : Booking :=
  { bk with status := .cancelled_by_admin, cancelReason := some (reason.getD "Cancelled by admin") }

/-! ## Helper lemmas -/

theorem bufferedConflict_eq_true_iff {busy : List TimeRange} {d b current : Nat} :
    bufferedConflict busy d b current = true ↔
      ∃ busyIv ∈ busy, current < timeToMinutes busyIv.endTime + b ∧
        ((current + d : Nat) : Int) > (timeToMinutes busyIv.startTime : Int) - (b : Int) := by
  simp [bufferedConflict, List.any_eq_true, Bool.and_eq_true, decide_eq_true_eq]

/-- The fuel of the slot loop is irrelevant as long as it exceeds the
remaining distance to the end of the working window: membership in the
generated candidate list is exactly "on the 15-minute grid, fits before
the end, and free of buffered conflicts". -/
theorem mem_generateTimeSlotMinutesAux (endM d b : Nat) (busy : List TimeRange) :
    ∀ fuel current s, endM < current + fuel →
      (s ∈ generateTimeSlotMinutesAux endM d b busy fuel current ↔
        ∃ k, s = current + 15 * k ∧ current + 15 * k + d ≤ endM ∧
          bufferedConflict busy d b (current + 15 * k) = false) := by
  intro fuel
  induction fuel with
  | zero =>
    intro current s h
    simp only [generateTimeSlotMinutesAux, List.not_mem_nil, false_iff]
    rintro ⟨k, rfl, hle, -⟩
    omega
  | succ n ih =>
    intro current s h
    simp only [generateTimeSlotMinutesAux]
    by_cases hg : current + d ≤ endM
    · rw [if_pos hg]
      by_cases hc : bufferedConflict busy d b current = true
      · rw [if_pos hc, ih (current + 15) s (by omega)]
        constructor
        · rintro ⟨k, rfl, hle, hcf⟩
          refine ⟨k + 1, by ring_nf, by omega, ?_⟩
          have harith : current + 15 + 15 * k = current + 15 * (k + 1) := by ring
          rwa [harith] at hcf
        · rintro ⟨k, rfl, hle, hcf⟩
          cases k with
          | zero => simp only [Nat.mul_zero, Nat.add_zero] at hcf; rw [hcf] at hc; cases hc
          | succ j =>
            refine ⟨j, by ring_nf, by omega, ?_⟩
            have harith : current + 15 + 15 * j = current + 15 * (j + 1) := by ring
            rwa [harith]
      · rw [if_neg hc]
        simp only [List.mem_cons, ih (current + 15) s (by omega)]
        constructor
        · rintro (rfl | ⟨k, rfl, hle, hcf⟩)
          · exact ⟨0, by omega, by omega, by simpa using Bool.eq_false_iff.mpr hc⟩
          · refine ⟨k + 1, by ring_nf, by omega, ?_⟩
            have harith : current + 15 + 15 * k = current + 15 * (k + 1) := by ring
            rwa [harith] at hcf
        · rintro ⟨k, rfl, hle, hcf⟩
          cases k with
          | zero => exact Or.inl (by omega)
          | succ j =>
            refine Or.inr ⟨j, by ring_nf, by omega, ?_⟩
            have harith : current + 15 + 15 * j = current + 15 * (j + 1) := by ring
            rwa [harith]
    · rw [if_neg hg]
      simp only [List.not_mem_nil, false_iff]
      rintro ⟨k, rfl, hle, -⟩
      omega

theorem mem_generateTimeSlotMinutes {startTime endTime : String} {d b : Nat}
    {busy : List TimeRange} {s : Nat} :
    s ∈ generateTimeSlotMinutes startTime endTime d b busy ↔
      ∃ k, s = timeToMinutes startTime + 15 * k ∧
        timeToMinutes startTime + 15 * k + d ≤ timeToMinutes endTime ∧
        bufferedConflict busy d b (timeToMinutes startTime + 15 * k) = false :=
  mem_generateTimeSlotMinutesAux (timeToMinutes endTime) d b busy
    (timeToMinutes endTime + 1) (timeToMinutes startTime) s (by omega)

theorem hasBookingConflict_eq_true_iff {bookings : List Booking} {masterId bookingDate : Nat}
    {startTime endTime : String} :
    hasBookingConflict bookings masterId bookingDate startTime endTime = true ↔
      ∃ bk ∈ bookings, bk.masterId = masterId ∧ bk.bookingDate = bookingDate ∧
        isBlocking bk.status = true ∧
        timeToMinutes startTime < timeToMinutes bk.endTime ∧
        timeToMinutes bk.startTime < timeToMinutes endTime := by
  simp only [hasBookingConflict, List.any_eq_true, List.mem_filter, Bool.and_eq_true,
    beq_iff_eq, decide_eq_true_eq]
  constructor
  · rintro ⟨bk, ⟨hmem, ⟨hm, hd⟩, hb⟩, hs, he⟩
    exact ⟨bk, hmem, hm, hd, hb, hs, he⟩
  · rintro ⟨bk, hmem, hm, hd, hb, hs, he⟩
    exact ⟨bk, ⟨hmem, ⟨hm, hd⟩, hb⟩, hs, he⟩

theorem pickMinCreated_eq_none {l : List WaitlistEntry} :
    pickMinCreated l = none ↔ l = [] := by
  cases l with
  | nil => simp [pickMinCreated]
  | cons e rest => simp [pickMinCreated]

theorem pickMinCreated_mem : ∀ {l : List WaitlistEntry} {e : WaitlistEntry},
    pickMinCreated l = some e → e ∈ l := by
  intro l
  induction l with
  | nil => intro e h; cases h
  | cons a rest ih =>
    intro e h
    rw [pickMinCreated, Option.some_inj] at h
    split at h
    · exact h ▸ List.mem_cons_self a rest
    · rename_i best hrest
      split at h
      · exact h ▸ List.mem_cons_self a rest
      · exact h ▸ List.mem_cons_of_mem a (ih hrest)

theorem pickMinCreated_min : ∀ {l : List WaitlistEntry} {e : WaitlistEntry},
    pickMinCreated l = some e → ∀ e' ∈ l, e.createdAt ≤ e'.createdAt := by
  intro l
  induction l with
  | nil => intro e h; cases h
  | cons a rest ih =>
    intro e h e' he'
    rw [pickMinCreated, Option.some_inj] at h
    split at h
    · rename_i hrest
      rw [pickMinCreated_eq_none] at hrest
      subst hrest
      rcases List.mem_singleton.mp he' with rfl
      exact h ▸ le_refl _
    · rename_i best hrest
      rcases List.mem_cons.mp he' with rfl | hmem
      · split at h
        · exact h ▸ le_refl _
        · rename_i hle
          exact h ▸ le_of_not_le hle
      · split at h
        · rename_i hle
          exact h ▸ hle.trans (ih hrest e' hmem)
        · exact h ▸ ih hrest e' hmem

theorem selectWaitlistEntry_matches {entries : List WaitlistEntry}
    {masterId serviceId bookingDate : Nat} {e : WaitlistEntry}
    (h : selectWaitlistEntry entries masterId serviceId bookingDate = some e) :
    e ∈ entries ∧ waitlistMatches masterId serviceId bookingDate e = true := by
  have hmem := pickMinCreated_mem h
  exact ⟨(List.mem_filter.mp hmem).1, (List.mem_filter.mp hmem).2⟩

theorem selectWaitlistEntry_oldest {entries : List WaitlistEntry}
    {masterId serviceId bookingDate : Nat} {e : WaitlistEntry}
    (h : selectWaitlistEntry entries masterId serviceId bookingDate = some e) :
    ∀ e' ∈ entries, waitlistMatches masterId serviceId bookingDate e' = true →
      e.createdAt ≤ e'.createdAt := by
  intro e' hmem hmatch
  exact pickMinCreated_min h e' (List.mem_filter.mpr ⟨hmem, hmatch⟩)

/-! ## Claim theorems -/

set_option maxRecDepth 10000 in
/-- C1: the claim asserts that two concurrent commits for overlapping
intervals on the same staff and date yield exactly one success because
the conflict re-check and the insert are indivisible in one transaction.
The code violates this: the re-check (lines 187-203) runs outside
`prisma.$transaction` (lines 255-313), so the interleaving that runs both
checks before either insert lets both commits succeed and leaves two
overlapping blocking reservations, breaking the no-double-booking
invariant. -/
theorem race_doubleBooking_bug :
    raceFinal.2.1.result = some true ∧ raceFinal.2.2.result = some true ∧
    raceFinal.1.bookings = [raceBooking 2, raceBooking 1] ∧
    ¬ noOverlappingBlocking raceFinal.1.bookings := by
  have heq : raceFinal.1.bookings = [raceBooking 2, raceBooking 1] := by with_unfolding_all decide
  refine ⟨by with_unfolding_all decide, by with_unfolding_all decide, heq, ?_⟩
  rw [heq]
  intro h
  exact (h (raceBooking 2) (by simp) (raceBooking 1) (by simp) (by decide) rfl rfl
    (by decide) (by decide)) (by decide)

/-- C5: the claim asserts the promo redemption counter is incremented
inside the commit transaction unconditionally, regardless of the loyalty
program.  The code increments it only inside the `if (loyaltySettings)`
branch (lines 289-310): with no active loyalty-settings row the same
booking still gets its 180 discount but the promo's `currentUses` stays
at 0; with a loyalty row it becomes 1. -/
theorem promo_increment_requires_loyalty_bug :
    (∃ db' bk, commitBooking dbNoLoyalty 7 1 0 "10:00" [(2, 10)] (some "SAVE20") 50 = .ok (db', bk) ∧
      bk.discountAmount = 180 ∧ bk.promoCodeId = some 5 ∧
      db'.promoCodes.map PromoCode.currentUses = [0]) ∧
    (∃ db' bk, commitBooking dbWithLoyalty 7 1 0 "10:00" [(2, 10)] (some "SAVE20") 50 = .ok (db', bk) ∧
      bk.discountAmount = 180 ∧ bk.promoCodeId = some 5 ∧
      db'.promoCodes.map PromoCode.currentUses = [1]) := by
  constructor
  · exact ⟨_, _, rfl, by with_unfolding_all decide, by with_unfolding_all decide,
      by with_unfolding_all decide⟩
  · exact ⟨_, _, rfl, by with_unfolding_all decide, by with_unfolding_all decide,
      by with_unfolding_all decide⟩

/-- C8: the claim asserts the waitlist booking action fails with
`SlotNoLongerAvailable` iff some blocking reservation strictly overlaps
the proposed half-open interval.  The code's check (waitlist controller,
lines 261-266) instead compares the existing booking's start against the
existing booking's own end, so a notified user booking 09:00-10:00 is
rejected although the only existing reservation is 12:00-13:00: the
strict conflict checker reports no conflict and the regular commit path
accepts the very same slot. -/
theorem waitlist_book_rejects_nonoverlapping_bug :
    waitlistBookSlot dbWaitBook 9 1 1 5 "09:00" [(2, 10)] = .error .SlotNoLongerAvailable ∧
    hasBookingConflict dbWaitBook.bookings 1 5 "09:00" (calculateEndTime "09:00" 60) = false ∧
    (∃ db' bk, commitBooking dbWaitBook 9 1 5 "09:00" [(2, 10)] none 0 = .ok (db', bk)) := by
  refine ⟨by with_unfolding_all rfl, by with_unfolding_all decide, ⟨_, _, rfl⟩⟩

/-- C3: generateSlots steps candidate starts from workStart in fixed
15-minute increments and stops once start + duration exceeds workEnd;
for 09:00-18:00, 60 minutes, buffer 15 and no busy intervals it returns
exactly 09:00, 09:15, ..., 17:00 in ascending order (neither 17:15 nor
anything later), and in general every emitted slot lies on the grid
workStart + 15k with slot end within the working window. -/
theorem generateSlots_scenario_and_grid :
    generateTimeSlots "09:00" "18:00" 60 15 [] =
      ["09:00", "09:15", "09:30", "09:45", "10:00", "10:15", "10:30", "10:45", "11:00", "11:15",
       "11:30", "11:45", "12:00", "12:15", "12:30", "12:45", "13:00", "13:15", "13:30", "13:45",
       "14:00", "14:15", "14:30", "14:45", "15:00", "15:15", "15:30", "15:45", "16:00", "16:15",
       "16:30", "16:45", "17:00"] ∧
    (∀ startTime endTime d b busy s, s ∈ generateTimeSlots startTime endTime d b busy →
      ∃ k, s = minutesToTime (timeToMinutes startTime + 15 * k) ∧
        timeToMinutes startTime + 15 * k + d ≤ timeToMinutes endTime) := by
  constructor
  · decide
  · intro startTime endTime d b busy s hs
    obtain ⟨m, hm, rfl⟩ := List.mem_map.mp hs
    obtain ⟨k, rfl, hle, -⟩ := mem_generateTimeSlotMinutes.mp hm
    exact ⟨k, rfl, hle⟩

/-- Witness for C3: the last scenario slot 17:00 is on the grid and fits. -/
theorem generateSlots_scenario_and_grid_witness :
    ∃ k, "17:00" = minutesToTime (timeToMinutes "09:00" + 15 * k) ∧
      timeToMinutes "09:00" + 15 * k + 60 ≤ timeToMinutes "18:00" :=
  generateSlots_scenario_and_grid.2 "09:00" "18:00" 60 15 [] "17:00" (by decide)

/-- C4: a grid candidate that fits the working window is excluded iff
for some busy interval `candidateStart < busyEnd + buffer && candidateEnd
> busyStart - buffer`; concretely, with busy 10:00-11:00 and buffer 15 a
30-minute candidate at 09:30 (ending 10:00) is excluded while 09:00
(ending 09:30) is included. -/
theorem generateSlots_buffer_exclusion_iff :
    (∀ startTime endTime d b busy k,
      timeToMinutes startTime + 15 * k + d ≤ timeToMinutes endTime →
      ((timeToMinutes startTime + 15 * k) ∈ generateTimeSlotMinutes startTime endTime d b busy ↔
        ¬ ∃ busyIv ∈ busy, timeToMinutes startTime + 15 * k < timeToMinutes busyIv.endTime + b ∧
          ((timeToMinutes startTime + 15 * k + d : Nat) : Int) >
            (timeToMinutes busyIv.startTime : Int) - (b : Int))) ∧
    "09:30" ∉ generateTimeSlots "09:00" "18:00" 30 15 [{ startTime := "10:00", endTime := "11:00" }] ∧
    "09:00" ∈ generateTimeSlots "09:00" "18:00" 30 15 [{ startTime := "10:00", endTime := "11:00" }] := by
  refine ⟨?_, by decide, by decide⟩
  intro startTime endTime d b busy k hfit
  rw [mem_generateTimeSlotMinutes]
  constructor
  · rintro ⟨j, hj, hle, hcf⟩ hex
    have hkj : k = j := by omega
    subst hkj
    rw [← bufferedConflict_eq_true_iff] at hex
    rw [hex] at hcf
    cases hcf
  · intro hnc
    refine ⟨k, rfl, hfit, ?_⟩
    rw [← Bool.not_eq_true, bufferedConflict_eq_true_iff]
    exact hnc

/-- Witness for C4: the buffered-exclusion equivalence instantiated at
the 09:30 candidate of the concrete scenario. -/
theorem generateSlots_buffer_exclusion_iff_witness :
    (timeToMinutes "09:00" + 15 * 2) ∈
        generateTimeSlotMinutes "09:00" "18:00" 30 15 [{ startTime := "10:00", endTime := "11:00" }] ↔
      ¬ ∃ busyIv ∈ [({ startTime := "10:00", endTime := "11:00" } : TimeRange)],
        timeToMinutes "09:00" + 15 * 2 < timeToMinutes busyIv.endTime + 15 ∧
          ((timeToMinutes "09:00" + 15 * 2 + 30 : Nat) : Int) >
            (timeToMinutes busyIv.startTime : Int) - (15 : Int) :=
  generateSlots_buffer_exclusion_iff.1 "09:00" "18:00" 30 15
    [{ startTime := "10:00", endTime := "11:00" }] 2 (by decide)

/-- C9: a client transition to cancelled_by_client requires ownership
and a current status in {pending_confirmation, confirmed,
deposit_pending}: a non-owner gets Forbidden, an owner with any other
current status (e.g. completed) gets InvalidTransition, an owner with a
cancellable status succeeds; the admin status update applies any target
status with no restriction on the current status. -/
theorem client_cancellation_policy :
    (∀ db userId bookingId reason bk, db.bookings.find? (fun b => b.id == bookingId) = some bk →
      bk.userId ≠ userId →
      clientUpdateBookingStatus db userId bookingId .cancelled_by_client reason = .error .Forbidden) ∧
    (∀ db userId bookingId reason bk, db.bookings.find? (fun b => b.id == bookingId) = some bk →
      bk.userId = userId →
      bk.status ∉ ([.pending_confirmation, .confirmed, .deposit_pending] : List BookingStatus) →
      clientUpdateBookingStatus db userId bookingId .cancelled_by_client reason =
        .error .InvalidTransition) ∧
    (∀ db userId bookingId reason bk, db.bookings.find? (fun b => b.id == bookingId) = some bk →
      bk.userId = userId →
      bk.status ∈ ([.pending_confirmation, .confirmed, .deposit_pending] : List BookingStatus) →
      ∃ db' u, clientUpdateBookingStatus db userId bookingId .cancelled_by_client reason = .ok (db', u) ∧
        u.status = .cancelled_by_client) ∧
    (∀ db bookingId status reason notes bk, db.bookings.find? (fun b => b.id == bookingId) = some bk →
      ∃ db' u, adminUpdateBookingStatus db bookingId status reason notes = .ok (db', u) ∧
        u.status = status) := by
  refine ⟨?_, ?_, ?_, ?_⟩
  · intro db userId bookingId reason bk hfind hown
    simp only [clientUpdateBookingStatus, hfind]
    split_ifs with h1 h2 h3 <;>
      first
        | rfl
        | (exact absurd (by decide) h1)
        | (exact absurd hown h2)
  · intro db userId bookingId reason bk hfind hown hst
    simp only [clientUpdateBookingStatus, hfind]
    split_ifs with h1 h2 h3
    · exact absurd hown h2
    · rfl
    · exfalso
      apply h3
      rw [show ([BookingStatus.pending_confirmation, .confirmed,
        .deposit_pending] : List BookingStatus).contains bk.status = false from by simpa using hst]
      decide
    · exact absurd (by decide) h1
  · intro db userId bookingId reason bk hfind hown hst
    simp only [clientUpdateBookingStatus, hfind]
    split_ifs with h1 h2 h3
    · exact absurd hown h2
    · exfalso
      rw [show ([BookingStatus.pending_confirmation, .confirmed,
        .deposit_pending] : List BookingStatus).contains bk.status = true from by simpa using hst] at h3
      simp at h3
    · exact ⟨_, _, rfl, rfl⟩
    · exact absurd (by decide) h1
  · intro db bookingId status reason notes bk hfind
    simp only [adminUpdateBookingStatus, hfind]
    exact ⟨_, _, rfl, rfl⟩

/-- Witness for C9: user 7 cannot cancel their completed booking, while
the admin endpoint moves the same booking to cancelled_by_client. -/
theorem client_cancellation_policy_witness :
    clientUpdateBookingStatus dbCompleted 7 1 .cancelled_by_client none = .error .InvalidTransition ∧
    (∃ db' u, adminUpdateBookingStatus dbCompleted 1 .cancelled_by_client none none = .ok (db', u) ∧
      u.status = .cancelled_by_client) := by
  constructor
  · exact client_cancellation_policy.2.1 dbCompleted 7 1 none _ (by with_unfolding_all rfl) rfl
      (by decide)
  · exact client_cancellation_policy.2.2.2 dbCompleted 1 .cancelled_by_client none none _
      (by with_unfolding_all rfl)

/-- C10: in the client status-update operation an owner can set
pending_confirmation or confirmed from any current status whatsoever,
because only the target cancelled_by_client is guarded by a
current-status check. -/
theorem client_status_update_unguarded :
    ∀ db userId bookingId target reason bk, db.bookings.find? (fun b => b.id == bookingId) = some bk →
      bk.userId = userId →
      (target = .pending_confirmation ∨ target = .confirmed) →
      ∃ db' u, clientUpdateBookingStatus db userId bookingId target reason = .ok (db', u) ∧
        u.status = target ∧ u.id = bk.id := by
  intro db userId bookingId target reason bk hfind hown htarget
  simp only [clientUpdateBookingStatus, hfind]
  rcases htarget with rfl | rfl <;>
  · split_ifs with h1 h2 h3
    · exact absurd hown h2
    · simp at h3
    · exact ⟨_, _, rfl, rfl, rfl⟩
    · exact absurd (by decide) h1

/-- witness C10: user 7 moves a completed booking back to confirmed. -/
theorem client_status_update_unguarded_witness :
    ∃ db' u, clientUpdateBookingStatus dbCompleted 7 1 .confirmed none = .ok (db', u) ∧
      u.status = .confirmed ∧ u.id = 1 := by
  have h := client_status_update_unguarded dbCompleted 7 1 .confirmed none
    { bookingTen with status := .completed } (by with_unfolding_all rfl) rfl (Or.inr rfl)
  exact h

/-- C7 counterexample: the claim says every transition into a cancelled
state triggers waitlist promotion.  The client status-update operation
moves user 7's booking (master 1, service 2, date 5) to
cancelled_by_client while a matching active waitlist entry exists and is
selectable, yet the waitlist is left completely unchanged: the handler
never invokes the promotion. -/
theorem client_cancel_no_waitlist_promotion_cex :
    (∃ db' u, clientUpdateBookingStatus dbCancel 7 1 .cancelled_by_client (some "sick") = .ok (db', u) ∧
      u.status = .cancelled_by_client ∧
      db'.waitlist = dbCancel.waitlist) ∧
    selectWaitlistEntry dbCancel.waitlist 1 2 5 = some entryW ∧
    entryW.status = .active := by
  refine ⟨⟨_, _, by with_unfolding_all rfl, rfl, by with_unfolding_all rfl⟩, ?_, rfl⟩
  with_unfolding_all rfl

/-- C7 amended: only the admin booking-cancellation operation (DELETE,
which sets cancelled_by_admin) triggers waitlist promotion; the client
and admin status-update operations do not.  When triggered for a freed
(staff, service, date): if no entry matches, the database is untouched;
otherwise the selected entry is a matching active one with the least
createdAt among all matching entries (FIFO), and exactly that one entry
is set to notified. -/
theorem waitlist_promotion_amended :
    (∀ db masterId serviceId bookingDate st et,
      selectWaitlistEntry db.waitlist masterId serviceId bookingDate = none →
      checkWaitlistAndNotify db masterId serviceId bookingDate st et = db) ∧
    (∀ db masterId serviceId bookingDate st et e,
      selectWaitlistEntry db.waitlist masterId serviceId bookingDate = some e →
      e ∈ db.waitlist ∧
      waitlistMatches masterId serviceId bookingDate e = true ∧
      (∀ e' ∈ db.waitlist, waitlistMatches masterId serviceId bookingDate e' = true →
        e.createdAt ≤ e'.createdAt) ∧
      (checkWaitlistAndNotify db masterId serviceId bookingDate st et).waitlist =
        db.waitlist.map (fun w => if w.id == e.id then { w with status := .notified } else w)) ∧
    (∀ db bookingId reason bk item rest,
      db.bookings.find? (fun b => b.id == bookingId) = some bk →
      bk.items = item :: rest →
      adminDeleteBooking db bookingId reason =
        .ok (checkWaitlistAndNotify
          { db with bookings := replaceBooking db.bookings (cancelledByAdmin bk reason) }
          bk.masterId item.serviceId bk.bookingDate bk.startTime bk.endTime,
          cancelledByAdmin bk reason)) := by
  refine ⟨?_, ?_, ?_⟩
  · intro db masterId serviceId bookingDate st et hnone
    simp only [checkWaitlistAndNotify, hnone]
  · intro db masterId serviceId bookingDate st et e hsome
    obtain ⟨hmem, hmatch⟩ := selectWaitlistEntry_matches hsome
    refine ⟨hmem, hmatch, selectWaitlistEntry_oldest hsome, ?_⟩
    simp only [checkWaitlistAndNotify, hsome]
  · intro db bookingId reason bk item rest hfind hitems
    simp only [adminDeleteBooking, hfind, hitems, cancelledByAdmin]

/-- Witness for C7 amended: promotion on the freed slot of dbCancel
selects entryW, which matches, is oldest, and alone becomes notified. -/
theorem waitlist_promotion_amended_witness :
    entryW ∈ dbCancel.waitlist ∧
    waitlistMatches 1 2 5 entryW = true ∧
    (∀ e' ∈ dbCancel.waitlist, waitlistMatches 1 2 5 e' = true →
      entryW.createdAt ≤ e'.createdAt) ∧
    (checkWaitlistAndNotify dbCancel 1 2 5 "10:00" "11:00").waitlist =
      dbCancel.waitlist.map (fun w => if w.id == entryW.id then { w with status := .notified } else w) :=
  waitlist_promotion_amended.2.1 dbCancel 1 2 5 "10:00" "11:00" entryW (by with_unfolding_all rfl)

/-- C2: once the master and the service/duration pairs validate,
commitBooking fails with SlotNotAvailable iff some existing reservation
of the same master and date in a blocking status satisfies the strict
half-open test newStart < existingEnd and newEnd > existingStart;
cancelled reservations never block and merely-touching intervals do not
conflict (both directions of the equivalence). -/
theorem commit_slotNotAvailable_iff_overlap
    (db : DB) (userId masterId bookingDate : Nat) (startTime : String)
    (serviceDurations : List (Nat × Nat)) (promoCode : Option String) (now : Int)
    (m : Master) (totalDuration : Nat) (totalPrice : ℚ) (items : List (Nat × Nat × ℚ))
    (hm : db.masters.find? (fun x => x.id == masterId && x.isActive) = some m)
    (hv : validateItems db masterId serviceDurations = .ok (totalDuration, totalPrice, items)) :
    commitBooking db userId masterId bookingDate startTime serviceDurations promoCode now =
        .error .SlotNotAvailable ↔
      ∃ bk ∈ db.bookings, bk.masterId = masterId ∧ bk.bookingDate = bookingDate ∧
        isBlocking bk.status = true ∧
        timeToMinutes startTime < timeToMinutes bk.endTime ∧
        timeToMinutes bk.startTime <
          timeToMinutes (calculateEndTime startTime totalDuration) := by
  rw [← hasBookingConflict_eq_true_iff]
  simp only [commitBooking, hm, hv]
  by_cases hc : hasBookingConflict db.bookings masterId bookingDate startTime
      (calculateEndTime startTime totalDuration) = true
  · rw [if_pos hc]
    exact ⟨(fun _ => hc), (fun _ => rfl)⟩
  · rw [if_neg hc]
    exact ⟨(fun h => by cases h), (fun h => absurd h hc)⟩

/-- Witness for C2: against a confirmed 09:00-10:00 booking, committing
10:00-11:00 (touching endpoint) is not a SlotNotAvailable failure -
the equivalence instantiated at dbTouch plus the concrete evaluation
showing no blocking overlap exists. -/
theorem commit_slotNotAvailable_iff_overlap_witness :
    (commitBooking dbTouch 7 1 0 "10:00" [(2, 10)] none 0 = .error .SlotNotAvailable ↔
      ∃ bk ∈ dbTouch.bookings, bk.masterId = 1 ∧ bk.bookingDate = 0 ∧
        isBlocking bk.status = true ∧
        timeToMinutes "10:00" < timeToMinutes bk.endTime ∧
        timeToMinutes bk.startTime < timeToMinutes (calculateEndTime "10:00" 60)) ∧
    ¬ (∃ bk ∈ dbTouch.bookings, bk.masterId = 1 ∧ bk.bookingDate = 0 ∧
        isBlocking bk.status = true ∧
        timeToMinutes "10:00" < timeToMinutes bk.endTime ∧
        timeToMinutes bk.startTime < timeToMinutes (calculateEndTime "10:00" 60)) := by
  constructor
  · exact commit_slotNotAvailable_iff_overlap dbTouch 7 1 0 "10:00" [(2, 10)] none 0
      masterA 60 900 [(2, 10, 900)] (by with_unfolding_all rfl) (by with_unfolding_all rfl)
  · with_unfolding_all decide

/-- applyPromo returns either exactly (none, 0) or the discount formula
for some promo row of the table. -/
theorem applyPromo_cases (promos : List PromoCode) (c : Option String) (now : Int) (total : ℚ) :
    applyPromo promos c now total = (none, 0) ∨
    ∃ promo ∈ promos, applyPromo promos c now total =
      (some promo.id,
        if promo.discountType == .percent then total * promo.discountValue / 100
        else min promo.discountValue total) := by
  unfold applyPromo
  split
  · exact Or.inl rfl
  · split
    · exact Or.inl rfl
    · rename_i promo hf
      split
      · split
        · exact Or.inr ⟨promo, List.mem_of_find?_eq_some hf, rfl⟩
        · exact Or.inl rfl
      · exact Or.inl rfl

set_option maxRecDepth 10000 in
/-- C6 counterexample: the claim says the discount never exceeds the
pre-discount total.  The promo-creation schema only requires a positive
discountValue, and the percent branch is not clamped: the active MEGA
promo (percent 150) on a 900 booking yields discount 1350 > 900 (and a
negative final price), with the commit succeeding. -/
theorem percent_discount_exceeds_total_cex :
    validateItems dbMega 1 [(2, 10)] = .ok (60, 900, [(2, 10, 900)]) ∧
    (∃ db' bk, commitBooking dbMega 7 1 0 "10:00" [(2, 10)] (some "MEGA") 50 = .ok (db', bk) ∧
      bk.discountAmount = 1350 ∧ ¬(bk.discountAmount ≤ 900)) := by
  refine ⟨by with_unfolding_all rfl, _, _, rfl, by with_unfolding_all decide, ?_⟩
  with_unfolding_all decide

/-- C6 amended: an invalid or failed promo silently yields (none, 0) and
the booking still commits; when all checks pass the discount is exactly
totalPrice * discountValue / 100 for percent and min(discountValue,
totalPrice) for fixed promos; the discount is bounded by the
pre-discount total for nonnegative totals provided every percent promo
has discountValue at most 100 (the fixed branch needs no such bound) -
not unconditionally, as the counterexample shows. -/
theorem promo_discount_amended :
    (∀ promos c now total, (applyPromo promos c now total).1 = none →
      (applyPromo promos c now total).2 = 0) ∧
    (∀ promos code now total promo,
      promos.find? (fun p => p.code == code) = some promo →
      promo.isActive = true →
      promoChecksPass promo now total = true →
      applyPromo promos (some code) now total =
        (some promo.id,
          if promo.discountType == .percent then total * promo.discountValue / 100
          else min promo.discountValue total)) ∧
    (∀ promos c now total, 0 ≤ total →
      (∀ p ∈ promos, p.discountType = .percent → p.discountValue ≤ 100) →
      (applyPromo promos c now total).2 ≤ total) ∧
    (∀ db userId masterId bookingDate startTime sds code now m totalDuration totalPrice items,
      db.masters.find? (fun x => x.id == masterId && x.isActive) = some m →
      validateItems db masterId sds = .ok (totalDuration, totalPrice, items) →
      hasBookingConflict db.bookings masterId bookingDate startTime
        (calculateEndTime startTime totalDuration) = false →
      ∃ db' bk, commitBooking db userId masterId bookingDate startTime sds code now =
        .ok (db', bk)) := by
  refine ⟨?_, ?_, ?_, ?_⟩
  · intro promos c now total h
    rcases applyPromo_cases promos c now total with heq | ⟨promo, -, heq⟩
    · rw [heq]
    · rw [heq] at h
      cases h
  · intro promos code now total promo hf ha hcheck
    simp only [applyPromo, hf, ha, hcheck, if_true]
  · intro promos c now total h0 hbound
    rcases applyPromo_cases promos c now total with heq | ⟨promo, hmem, heq⟩
    · rw [heq]
      exact h0
    · rw [heq]
      dsimp only
      by_cases hdt : (promo.discountType == DiscountType.percent) = true
      · rw [if_pos hdt]
        have hv : promo.discountValue ≤ 100 := hbound promo hmem (by simpa using hdt)
        calc total * promo.discountValue / 100 ≤ total * 100 / 100 := by gcongr
          _ = total := by ring
      · rw [if_neg hdt]
        exact min_le_right _ _
  · intro db userId masterId bookingDate startTime sds code now m totalDuration totalPrice items
      hm hv hnc
    simp only [commitBooking, hm, hv]
    rw [if_neg (by simp [hnc])]
    exact ⟨_, _, rfl⟩

/-- Witness for C6 amended: SAVE20 on a 900 total produces the formula
discount (180) and respects the bound. -/
theorem promo_discount_amended_witness :
    applyPromo [promoSave20] (some "SAVE20") 50 900 =
      (some promoSave20.id,
        if promoSave20.discountType == .percent then (900 : ℚ) * promoSave20.discountValue / 100
        else min promoSave20.discountValue 900) ∧
    (applyPromo [promoSave20] (some "SAVE20") 50 900).2 ≤ 900 := by
  constructor
  · exact promo_discount_amended.2.1 [promoSave20] "SAVE20" 50 900 promoSave20
      (by with_unfolding_all rfl) rfl (by with_unfolding_all decide)
  · exact promo_discount_amended.2.2.1 [promoSave20] (some "SAVE20") 50 900 (by norm_num)
      (fun p hp _ => by rcases List.mem_singleton.mp hp with rfl; with_unfolding_all decide)

end MassageBot
